import Mathlib

/-!
Shallow embedding of `src/birdseye/mcts.py` (functions `run_mcts` and `mcts`)
and proofs of the specification claims about it.

Modelling conventions:
* Python runtime values that flow through the configuration pipeline are
  modelled by `PyVal` (int, float, bool, str, None).  Python floats are
  modelled as exact rationals; the decimal rendering `pyStr` and the parsers
  model the fragment of Python `str`, `float()`, `int()` exercised by this
  program: optional sign, decimal digits, optional fractional part
  (exponents, underscores, surrounding whitespace and configparser value
  interpolation are outside the modelled fragment).
* `configparser`: `ConfigParser(defaults)` stringifies the builtin defaults
  into the DEFAULT section (`read_dict` applies `str`), `items("Defaults")`
  merges the file section over the DEFAULT section, and
  `getboolean("Defaults", "plotting")` parses via `BOOLEAN_STATES`.
* `argparse`: a flag supplied on the command line is converted with the
  action's declared `type`; an absent flag keeps the default installed by
  `set_defaults`, and a *string* default is lazily converted with the
  declared `type` at the end of `parse_known_args` (a non-string default is
  kept verbatim); a missing default resolves to `None`.
* The trial loop of `run_mcts` is modelled as a recursion producing a trace
  of externally observable events: calls to `mcts_trial`, progress reports,
  `results.write_dataframe` calls, `results.save_gif` calls, and the
  `write_header_log` call of `mcts`.  The pair of strictly increasing wall
  clock timestamps stored in each run record is abstracted by the trial
  index; the opaque per-trial payload `result` is modelled as a list of
  lists of rationals (positions 6 and 7 carry the cumulative collision and
  loss histories, as the source requires).
* The external collaborator `mcts_trial` is modelled as an oracle from the
  trial index to either a payload or a raised error code.
-/

namespace BirdsEye

/-! ## Definitions: the embedding of mcts.py and the observation helpers -/

/-- Python runtime values flowing through the configuration pipeline. -/
inductive PyVal where
  | VInt : Int → PyVal
  | VFloat : Rat → PyVal
  | VBool : Bool → PyVal
  | VStr : String → PyVal
  | VNone : PyVal
deriving DecidableEq, Repr

/-- Pad a digit string with leading zeros up to length `k`. -/

def padZeros (s : String) (k : Nat) : String :=
  String.mk (List.replicate (k - s.length) '0') ++ s

/-- Decimal rendering of a Python float (modelled as a rational with a
terminating decimal expansion), as produced by Python `str`:
`str(0.8) = "0.8"`, `str(-2.0) = "-2.0"`, `str(10.0) = "10.0"`. -/

def ratFloatStr (q : Rat) : String :=
  match (List.range 31).find? (fun k => (q * (10 : Rat) ^ k).den == 1) with
  | none => "?"
  | some k =>
    let m : Int := (q * (10 : Rat) ^ k).num
    let a : Nat := m.natAbs
    let ip : Nat := a / 10 ^ k
    let fp : Nat := a % 10 ^ k
    let frac : String := if k = 0 then "0" else padZeros (toString fp) k
    (if m < 0 then "-" else "") ++ toString ip ++ "." ++ frac

/-- Python `str()` applied to a value, as used by `ConfigParser.read_dict`
when the builtin defaults dictionary is stringified into the DEFAULT
section. -/

def pyStr : PyVal → String
  | .VInt n => toString n
  | .VFloat q => ratFloatStr q
  | .VBool b => if b then "True" else "False"
  | .VStr s => s
  | .VNone => "None"

/-- Numeric value of a list of decimal digit characters. -/

def digitsToNat (cs : List Char) : Nat :=
  cs.foldl (fun a c => a * 10 + (c.toNat - 48)) 0

/-- All characters are decimal digits. -/

def allDigits (cs : List Char) : Bool :=
  cs.all Char.isDigit

/-- Python `int(s)` on the modelled fragment: optional sign followed by a
nonempty run of decimal digits. -/

def parseIntStr (s : String) : Option Int :=
  let cs := s.toList
  let (neg, rest) :=
    match cs with
    | '-' :: r => (true, r)
    | '+' :: r => (false, r)
    | r => (false, r)
  if rest ≠ [] ∧ allDigits rest then
    let v : Int := Int.ofNat (digitsToNat rest)
    some (if neg then -v else v)
  else
    none

/-- Python `float(s)` on the modelled fragment: optional sign, then either
`digits`, `digits.`, `digits.digits`, or `.digits`. -/

def parseFloatStr (s : String) : Option Rat :=
  let cs := s.toList
  let (neg, rest) :=
    match cs with
    | '-' :: r => (true, r)
    | '+' :: r => (false, r)
    | r => (false, r)
  let ipart := rest.takeWhile (fun c => c ≠ '.')
  let remainder := rest.dropWhile (fun c => c ≠ '.')
  let ok : Bool :=
    match remainder with
    | [] => ipart ≠ [] ∧ allDigits ipart
    | _ :: frac =>
        allDigits ipart ∧ allDigits frac ∧ (ipart ≠ [] ∨ frac ≠ [])
  if ok then
    let frac := remainder.drop 1
    let v : Rat :=
      (digitsToNat ipart : Rat) + (digitsToNat frac : Rat) / (10 : Rat) ^ frac.length
    some (if neg then -v else v)
  else
    none

/-- `configparser` boolean parsing (`BOOLEAN_STATES`, case-insensitive):
used by `config.getboolean("Defaults", "plotting")`. -/

def pyGetBool (s : String) : Option Bool :=
  let t := s.toLower
  if t = "1" ∨ t = "yes" ∨ t = "true" ∨ t = "on" then some true
  else if t = "0" ∨ t = "no" ∨ t = "false" ∨ t = "off" then some false
  else none

/-- The eight configuration fields of the program (the argparse flags
`--lambda_arg --collision --loss --depth --simulations --plotting --trials
--iterations`). -/

inductive ConfigField where
  | lambda_arg | collision | loss | depth | simulations | plotting | trials | iterations
deriving DecidableEq, Repr, Fintype

/-- Declared argparse `type` of each flag. -/

inductive PType where
  | tFloat | tInt | tBool
deriving DecidableEq, Repr

/-- Declared type of each flag, exactly as in the `add_argument` calls
(note `--depth` is declared `type=float` in the source). -/

def ftype : ConfigField → PType
  | .lambda_arg => .tFloat
  | .collision => .tFloat
  | .loss => .tFloat
  | .depth => .tFloat
  | .simulations => .tInt
  | .plotting => .tBool
  | .trials => .tInt
  | .iterations => .tInt

/-- Conversion of a command-line (or lazily converted string default) value
by the declared argparse `type`.  `type=bool` is Python `bool(s)`, which is
truth of nonemptiness and never fails. -/

def convType : PType → String → Option PyVal
  | .tFloat, s => (parseFloatStr s).map PyVal.VFloat
  | .tInt, s => (parseIntStr s).map PyVal.VInt
  | .tBool, s => some (PyVal.VBool (!s.isEmpty))

/-- Errors raised during configuration resolution (`mcts` lines 110-130):
`noPlottingKey` is `configparser.NoOptionError`, `badPlottingValue` the
`ValueError` of `getboolean`, and the two remaining constructors the
`argparse` exits on an unconvertible command-line value or string default. -/

inductive CfgErr where
  | noPlottingKey
  | badPlottingValue (s : String)
  | badCliValue (f : ConfigField) (s : String)
  | badDefaultValue (f : ConfigField) (s : String)
deriving DecidableEq, Repr

/-- A file configuration: the contents of the "Defaults" section, one
optional string per field (extra keys are irrelevant to the eight flags). -/

abbrev FileCfg := ConfigField → Option String

/-- The builtin defaults dictionary `mcts_defaults`. -/

abbrev Builtins := ConfigField → Option PyVal

/-- Command-line surface: for each flag, the raw string supplied after it,
or `none` when the flag was not given. -/

abbrev CliArgs := ConfigField → Option String

/-- The merged view produced by `config.items("Defaults")`: the file's
"Defaults" section over the DEFAULT section holding the stringified
builtin defaults. -/

def mergedFileMap (file : FileCfg) (builtin : Builtins) : ConfigField → Option String :=
  fun f => ((file f).orElse (fun _ => (builtin f).map pyStr))

/-- The defaults dictionary handed to argparse when a file configuration
was read: the plotting entry replaced by the parsed boolean `b`, every
other merged entry kept as a string. -/

def cfgDefaults (file : FileCfg) (builtin : Builtins) (b : Bool) :
    ConfigField → Option PyVal :=
  fun f =>
    if f = .plotting then some (.VBool b)
    else (mergedFileMap file builtin f).map .VStr

/-- Lines 111-115 of the source: build a `ConfigParser` whose DEFAULT
section is the stringified builtins, read the file sections into it, take
`dict(config.items("Defaults"))`, then replace the `plotting` entry by
`config.getboolean("Defaults", "plotting")`. -/

def configparserStep (file : FileCfg) (builtin : Builtins) :
    Except CfgErr (ConfigField → Option PyVal) :=
  match mergedFileMap file builtin .plotting with
  | none => .error .noPlottingKey
  | some s =>
    match pyGetBool s with
    | none => .error (.badPlottingValue s)
    | some b => .ok (cfgDefaults file builtin b)

/-- Resolution of a single argparse action: a supplied flag value is
converted with the declared type; otherwise the installed default is used,
with a string default lazily converted with the declared type and a missing
default resolving to `None`. -/

def resolveField (defaults : ConfigField → Option PyVal) (cli : CliArgs)
    (f : ConfigField) : Except CfgErr PyVal :=
  match cli f with
  | some s =>
    match convType (ftype f) s with
    | some v => .ok v
    | none => .error (.badCliValue f s)
  | none =>
    match defaults f with
    | none => .ok .VNone
    | some (.VStr s) =>
      match convType (ftype f) s with
      | some v => .ok v
      | none => .error (.badDefaultValue f s)
    | some v => .ok v

/-- Lines 117-130 of the source: `parser.set_defaults(**defaults)`, the
eight `add_argument` calls, and `parser.parse_known_args()`. -/

def argparseStep (defaults : ConfigField → Option PyVal) (cli : CliArgs) :
    Except CfgErr (ConfigField → PyVal) := do
  let la ← resolveField defaults cli .lambda_arg
  let co ← resolveField defaults cli .collision
  let lo ← resolveField defaults cli .loss
  let de ← resolveField defaults cli .depth
  let si ← resolveField defaults cli .simulations
  let pl ← resolveField defaults cli .plotting
  let tr ← resolveField defaults cli .trials
  let it ← resolveField defaults cli .iterations
  .ok (fun f =>
    match f with
    | .lambda_arg => la
    | .collision => co
    | .loss => lo
    | .depth => de
    | .simulations => si
    | .plotting => pl
    | .trials => tr
    | .iterations => it)

/-- Configuration resolution of the entry point `mcts` (lines 110-130):
the configparser step runs only when a file configuration was supplied,
then argparse resolves every flag. -/

def resolveConfig (args : Option FileCfg) (cli : CliArgs) (builtin : Builtins) :
    Except CfgErr (ConfigField → PyVal) :=
  match args with
  | some file =>
    match configparserStep file builtin with
    | .error e => .error e
    | .ok d => argparseStep d cli
  | none => argparseStep builtin cli

/-- The opaque per-trial payload returned by `mcts_trial`: a positional
sequence whose elements at positions 6 and 7 are the cumulative collision
and loss histories. -/

abbrev Payload := List (List Rat)

/-- The external trial-execution collaborator `mcts_trial`, modelled as an
oracle from the 1-based trial index to either a payload or a raised error
(identified by a numeric code). -/

abbrev Engine := Nat → Except Nat Payload

/-- Errors raised inside the trial loop: a raise from `mcts_trial`, or the
`IndexError` of `result[6][-1]` / `result[7][-1]` on a malformed payload. -/

inductive TrialErr where
  | engineFailure (code : Nat)
  | indexError
deriving DecidableEq, Repr

/-- One entry of `run_data`: the pair of strictly increasing timestamps
`[datetime.now(), run_time]` is abstracted by the trial index `idx`, and
`tail` is `result[1:]`. -/

structure RunRec where
  idx : Nat
  tail : Payload
deriving DecidableEq, Repr

/-- Externally observable events of one invocation of the program:
`callTrial` is an invocation of `mcts_trial` (arguments in source order:
iterations, depth, the horizon literal, plotting, simulations, and the
`fig`/`ax` handles, abstracted as optional tokens); `report` the progress
print of trial `i`; `write` a `results.write_dataframe` call with its
argument; `gif` a `results.save_gif` call; `header` the
`write_header_log` call of `mcts`. -/

inductive Event where
  | header
  | callTrial (iters depth : PyVal) (horizon : Int) (plotting sims : PyVal)
      (figTok axTok : Option Nat)
  | report (i : Nat) (sims depth : PyVal) (collRate lossRate : Rat)
  | write (arg : List RunRec)
  | gif (i : Nat)
deriving DecidableEq, Repr

/-- Python truthiness, as applied by `if results.plotting:`. -/

def truthy : PyVal → Bool
  | .VBool b => b
  | .VInt n => n != 0
  | .VFloat q => q != 0
  | .VStr s => !s.isEmpty
  | .VNone => false

/-- Extraction `(result[6][-1], result[7][-1])`; `none` models the
`IndexError` raised on a payload missing those positions. -/

def extractCounts (res : Payload) : Option (Rat × Rat) :=
  match res.get? 6, res.get? 7 with
  | some c, some l =>
    match c.getLast?, l.getLast? with
    | some cv, some lv => some (cv, lv)
    | _, _ => none
  | _, _ => none

/-- The per-trial arguments `run_mcts` passes to `mcts_trial`, fixed for
the whole run. -/

structure LoopParams where
  iters : PyVal
  depth : PyVal
  plotting : PyVal
  sims : PyVal
  figTok : Option Nat
  axTok : Option Nat
deriving DecidableEq, Repr

/-- The `mcts_trial(env, iterations, DEPTH, 20, plotting, simulations,
fig=fig, ax=ax, results=results)` call event; the horizon is the literal
`20` of source line 76. -/

def callEvent (p : LoopParams) : Event :=
  .callTrial p.iters p.depth 20 p.plotting p.sims p.figTok p.axTok

/-- State threaded through the trial loop: the event trace so far, the
`run_data` list, and the error that aborted the loop, if any. -/

structure RunState where
  events : List Event
  runData : List RunRec
  err : Option TrialErr
deriving DecidableEq, Repr

/-- The trial loop of `run_mcts` (source lines 70-102): for each index
from `i` while `r` trials remain, call `mcts_trial`; on success append
`[now, run_time] + result[1:]` to `run_data`, read the cumulative counts,
print the progress report with `count / i` rates, call
`results.write_dataframe(run_data)`, and call `results.save_gif(i)` when
plotting is truthy; a raise from `mcts_trial` (or the `IndexError` of the
count extraction) aborts the loop. -/

def runLoop (p : LoopParams) (engine : Engine) : Nat → Nat → RunState → RunState
  | 0, _, st => st
  | r + 1, i, st =>
    let evs1 := st.events ++ [callEvent p]
    match engine i with
    | .error c => ⟨evs1, st.runData, some (.engineFailure c)⟩
    | .ok res =>
      let rd := st.runData ++ [⟨i, res.drop 1⟩]
      match extractCounts res with
      | none => ⟨evs1, rd, some .indexError⟩
      | some cl =>
        runLoop p engine r (i + 1)
          ⟨evs1 ++
              [.report i p.sims p.depth (cl.1 / (i : Rat)) (cl.2 / (i : Rat)),
               .write rd] ++
              (if truthy p.plotting then [.gif i] else []),
            rd, st.err⟩

/-- Failures of `run_mcts` before the loop starts: `attrError` is the
`AttributeError` of reading a missing attribute off the
`SimpleNamespace(**mcts_defaults)` fallback, `typeError` the `TypeError`
of `range(1, num_runs + 1)` when `num_runs` is not an integer. -/

inductive SetupErr where
  | attrError
  | typeError
deriving DecidableEq, Repr

/-- Number of iterations of `range(1, v + 1)` for a trials value `v`;
`none` is the `TypeError` on non-integers (Python `bool` is an `int`
subclass, hence the `VBool` case). -/

def trialsCount : PyVal → Option Nat
  | .VInt n => some n.toNat
  | .VBool b => some (if b then 1 else 0)
  | _ => none

/-- The function `run_mcts` (source lines 15-102).  `config = None` falls
back to `SimpleNamespace(**mcts_defaults)`; the five attributes read at
lines 51-55 must exist; `Results` is constructed with the resolved
plotting value and the loop then runs `trials` times from index 1. -/

def run_mcts (config : Option (ConfigField → PyVal)) (mctsDefaults : Builtins)
    (figTok axTok : Option Nat) (engine : Engine) : Except SetupErr RunState :=
  let cfg : ConfigField → Option PyVal :=
    match config with
    | some ns => fun f => some (ns f)
    | none => mctsDefaults
  match cfg .simulations, cfg .depth, cfg .trials, cfg .iterations, cfg .plotting with
  | some sims, some depth, some tr, some iters, some plotting =>
    match trialsCount tr with
    | some n =>
      .ok (runLoop ⟨iters, depth, plotting, sims, figTok, axTok⟩ engine n 1 ⟨[], [], none⟩)
    | none => .error .typeError
  | _, _, _, _, _ => .error .attrError

/-- Where an invocation of `mcts` failed, when it did. -/

inductive MctsFail where
  | config (e : CfgErr)
  | setup (e : SetupErr)
  | trial (e : TrialErr)
deriving DecidableEq, Repr

/-- Outcome of one invocation of the entry point: the event trace up to
completion or failure, the final `run_data`, and the failure, if any. -/

structure MctsOut where
  events : List Event
  runData : List RunRec
  fail : Option MctsFail
deriving DecidableEq, Repr

/-- The entry point `mcts` (source lines 105-148): resolve the
configuration (configparser step only when a file configuration `args`
was supplied, then argparse), write the header log exactly when a file
configuration was supplied (line 140), and drive `run_mcts` with the
resolved namespace; `fig` and `ax` are not passed and stay `None`. -/

def mcts (args : Option FileCfg) (cli : CliArgs) (builtin : Builtins)
    (engine : Engine) : MctsOut :=
  match resolveConfig args cli builtin with
  | .error e => ⟨[], [], some (.config e)⟩
  | .ok ns =>
    let hdr : List Event := if args.isSome then [.header] else []
    match run_mcts (some ns) builtin none none engine with
    | .error e => ⟨hdr, [], some (.setup e)⟩
    | .ok st => ⟨hdr ++ st.events, st.runData, st.err.map .trial⟩


/-- Arguments of the `write_dataframe` calls in a trace, in order. -/

def writesOf (evs : List Event) : List (List RunRec) :=
  evs.filterMap (fun e =>
    match e with
    | .write arg => some arg
    | _ => none)

/-- The `mcts_trial` call events of a trace, in order. -/

def callsOf (evs : List Event) : List Event :=
  evs.filter (fun e =>
    match e with
    | .callTrial _ _ _ _ _ _ _ => true
    | _ => false)

/-- The `save_gif` call arguments of a trace, in order. -/

def gifsOf (evs : List Event) : List Nat :=
  evs.filterMap (fun e =>
    match e with
    | .gif i => some i
    | _ => none)

/-- The progress reports of a trace, in order:
`(trial index, collision rate, loss rate)`. -/

def reportsOf (evs : List Event) : List (Nat × Rat × Rat) :=
  evs.filterMap (fun e =>
    match e with
    | .report i _ _ c l => some (i, c, l)
    | _ => none)

/-- Number of `write_header_log` events in a trace. -/

def headerCount (evs : List Event) : Nat :=
  (evs.filter (fun e =>
    match e with
    | .header => true
    | _ => false)).length

/-- The payload the engine returns at trial `j` (meaningful when the
engine succeeds there). -/

def okRes (engine : Engine) (j : Nat) : Payload :=
  match engine j with
  | .ok res => res
  | .error _ => []

/-- The run record appended for trial `j`. -/

def recAt (engine : Engine) (j : Nat) : RunRec :=
  ⟨j, (okRes engine j).drop 1⟩

/-- The run records of trials `i, i+1, ..., i+r-1`. -/

def recsRange (engine : Engine) (i r : Nat) : List RunRec :=
  (List.range' i r).map (recAt engine)

/-- The cumulative `(collision, loss)` counts the engine reports at trial
`j` (meaningful when extraction succeeds there). -/

def countsAt (engine : Engine) (j : Nat) : Rat × Rat :=
  (extractCounts (okRes engine j)).getD (0, 0)

/-- The engine behaves at trial `j`: it returns a payload from which both
cumulative counts can be extracted. -/

def engineWf (engine : Engine) (j : Nat) : Bool :=
  match engine j with
  | .ok res => (extractCounts res).isSome
  | .error _ => false

/-- The events of the successful trial `j` when `run_data` held `base`
beforehand: the `mcts_trial` call, the progress report with the
`count / j` rates, the `write_dataframe` call seeing the newly appended
record, and the `save_gif` call when plotting is truthy. -/

def blockEvents (p : LoopParams) (engine : Engine) (base : List RunRec)
    (j : Nat) : List Event :=
  [callEvent p,
   .report j p.sims p.depth ((countsAt engine j).1 / (j : Rat))
     ((countsAt engine j).2 / (j : Rat)),
   .write (base ++ [recAt engine j])] ++
  (if truthy p.plotting then [.gif j] else [])

/-- Reference trace of `r` successful trials starting at index `i` with
`run_data` initially `base`. -/

def traceFrom (p : LoopParams) (engine : Engine) :
    List RunRec → Nat → Nat → List Event
  | _, _, 0 => []
  | base, i, r + 1 =>
    blockEvents p engine base i ++
      traceFrom p engine (base ++ [recAt engine i]) (i + 1) r

/-- The successive `run_data` snapshots passed to `write_dataframe` over
`r` successful trials starting at index `i` with `run_data` initially
`base`. -/

def snapshots (engine : Engine) : List RunRec → Nat → Nat → List (List RunRec)
  | _, _, 0 => []
  | base, i, r + 1 =>
    (base ++ [recAt engine i]) :: snapshots engine (base ++ [recAt engine i]) (i + 1) r

def isErr {e a : Type} : Except e a → Bool
  | .error _ => true
  | .ok _ => false

instance exceptDecEq {e a : Type} [DecidableEq e] [DecidableEq a] :
    DecidableEq (Except e a) := fun x y =>
  match x, y with
  | .ok u, .ok v =>
    if h : u = v then isTrue (by rw [h])
    else isFalse (fun hc => h (Except.ok.inj hc))
  | .error u, .error v =>
    if h : u = v then isTrue (by rw [h])
    else isFalse (fun hc => h (Except.error.inj hc))
  | .ok _, .error _ => isFalse (fun hc => Except.noConfusion hc)
  | .error _, .ok _ => isFalse (fun hc => Except.noConfusion hc)

def fieldConvFails (d : ConfigField → Option PyVal) (cli : CliArgs)
    (f : ConfigField) : Bool :=
  match cli f with
  | some s => (convType (ftype f) s).isNone
  | none =>
    match d f with
    | some (.VStr s) => (convType (ftype f) s).isNone
    | _ => false

def numVal : PyVal → Option Rat
  | .VInt n => some (n : Rat)
  | .VFloat q => some q
  | .VBool b => some (if b then 1 else 0)
  | .VStr _ => none
  | .VNone => none

/-- Python `==` on the modelled values: numeric values compare by
magnitude (`5 == 5.0`, `True == 1`), everything else structurally. -/

def pyEqb (a b : PyVal) : Bool :=
  match numVal a, numVal b with
  | some x, some y => x == y
  | _, _ => decide (a = b)

def isStr : PyVal → Bool
  | .VStr _ => true
  | _ => false

/-- A builtin default value is sane for its field: it is not a string, and
it survives the stringify-then-reparse round trip of the file-config path
up to Python `==` (true of every value of the field's declared Python
type whose decimal rendering is exact, e.g. the module-level
`mcts_defaults`). -/

def builtinSaneB (f : ConfigField) (v : PyVal) : Bool :=
  !isStr v &&
    (match ftype f with
     | .tBool =>
       match pyGetBool (pyStr v) with
       | some b => pyEqb (.VBool b) v
       | none => false
     | .tInt =>
       match convType .tInt (pyStr v) with
       | some w => pyEqb w v
       | none => false
     | .tFloat =>
       match convType .tFloat (pyStr v) with
       | some w => pyEqb w v
       | none => false)

/-- Second definition for the refinement claim C1, following the spec
words: the resolved value of a field is the value of the
highest-precedence source that actually specifies it (cli over file over
builtin), each source value read according to the field's declared type;
a field specified by no source resolves to `None`. -/

def specResolved (builtin : Builtins) (args : Option FileCfg) (cli : CliArgs)
    (f : ConfigField) : Option PyVal :=
  match cli f with
  | some s => convType (ftype f) s
  | none =>
    match args with
    | some file =>
      match file f with
      | some s =>
        match ftype f with
        | .tBool => (pyGetBool s).map .VBool
        | t => convType t s
      | none => some ((builtin f).getD .VNone)
    | none => some ((builtin f).getD .VNone)

def loopParamsOf (ns : ConfigField → PyVal) (figTok axTok : Option Nat) : LoopParams :=
  ⟨ns .iterations, ns .depth, ns .plotting, ns .simulations, figTok, axTok⟩

def mctsDefaultsPy : Builtins := fun f =>
  match f with
  | .lambda_arg => some (.VFloat (4 / 5))
  | .collision => some (.VFloat (-2))
  | .loss => some (.VFloat (-2))
  | .depth => some (.VInt 10)
  | .simulations => some (.VInt 500)
  | .plotting => some (.VBool false)
  | .trials => some (.VInt 100)
  | .iterations => some (.VInt 500)

/-- An empty command line. -/

def noCliW : CliArgs := fun _ => none

/-- A field specified by no configuration layer. -/

def specifiesNobody (builtin : Builtins) (args : Option FileCfg) (cli : CliArgs)
    (f : ConfigField) : Bool :=
  (cli f).isNone &&
    (match args with
     | some file => (file f).isNone
     | none => true) &&
    (builtin f).isNone

/-- Some required field remains unresolved after merging all three
layers. -/

def requiredUnresolvedB (builtin : Builtins) (args : Option FileCfg)
    (cli : CliArgs) : Bool :=
  decide (∃ f, specifiesNobody builtin args cli f = true)

/-- Some boolean-typed field the file config provides does not parse as a
boolean. -/

def malformedFileBoolB (args : Option FileCfg) : Bool :=
  match args with
  | none => false
  | some file =>
    decide (∃ f, ftype f = .tBool ∧
      (match file f with
       | some s => (pyGetBool s).isNone
       | none => false) = true)

/-- File config whose depth entry is not a number. -/

def c6File : FileCfg := fun f =>
  match f with
  | .depth => some "abc"
  | _ => none

/-- C6 counterexample: with the module defaults and a file config whose
depth entry is the unparseable string "abc", resolution fails although no
required field is unresolved and no boolean-typed file field is
malformed, refuting the claimed exact characterization. -/

def resolutionFailCond (builtin : Builtins) (args : Option FileCfg)
    (cli : CliArgs) : Prop :=
  match args with
  | none => ∃ f, fieldConvFails builtin cli f = true
  | some file =>
    match mergedFileMap file builtin .plotting with
    | none => True
    | some s =>
      match pyGetBool s with
      | none => True
      | some b => ∃ f, fieldConvFails (cfgDefaults file builtin b) cli f = true

/-- C6 amended: configuration resolution fails exactly when a supplied
file config has a missing or unparseable merged plotting entry, or when
some field's effective string value (from the command line, or from the
file/stringified-builtin merge when no flag overrides it) cannot be
parsed as the field's declared type; a field unresolved in every layer
does not fail resolution but resolves to None, and the run then fails
only at use, when the trials value is not an integer. -/

def c9File : FileCfg := fun f =>
  match f with
  | .plotting => some "maybe"
  | _ => none

/-- An engine that immediately returns an empty payload (never reached in
the C9 counterexample). -/

def c9Eng : Engine := fun _ => .ok []

/-- C9 counterexample: a file configuration was supplied, yet no header is
written, because resolution aborts on the malformed plotting entry before
`write_header_log` runs; this refutes the claimed if-and-only-if. -/

def c8Builtin : Builtins := fun f =>
  match f with
  | .trials => some (.VInt 3)
  | .simulations => some (.VInt 10)
  | .depth => some (.VInt 5)
  | .iterations => some (.VInt 50)
  | .plotting => some (.VBool false)
  | .lambda_arg => some (.VFloat (4 / 5))
  | .collision => some (.VFloat (-2))
  | .loss => some (.VFloat (-2))

/-- Expected resolution of the first C8 scenario (no file, no cli). -/

def c8Ns1 : ConfigField → PyVal := fun f =>
  match f with
  | .trials => .VInt 3
  | .simulations => .VInt 10
  | .depth => .VInt 5
  | .iterations => .VInt 50
  | .plotting => .VBool false
  | .lambda_arg => .VFloat (4 / 5)
  | .collision => .VFloat (-2)
  | .loss => .VFloat (-2)

/-- The command line `--trials 1 --plotting true` of the second C8
scenario. -/

def c8Cli2 : CliArgs := fun f =>
  match f with
  | .trials => some "1"
  | .plotting => some "true"
  | _ => none

/-- Expected resolution of the second C8 scenario. -/

def c8Ns2 : ConfigField → PyVal := fun f =>
  match f with
  | .trials => .VInt 1
  | .plotting => .VBool true
  | .simulations => .VInt 10
  | .depth => .VInt 5
  | .iterations => .VInt 50
  | .lambda_arg => .VFloat (4 / 5)
  | .collision => .VFloat (-2)
  | .loss => .VFloat (-2)

/-- C8: with the scenario builtins and no file config, no cli: the
resolver returns the eight builtin values unchanged, three trials run,
the persistence write runs three times with sequences of length 1, 2, 3,
and save_gif never runs; with cli `--trials 1 --plotting true`: trials
resolves to 1 and plotting to True, one trial runs, one write of a
length-1 sequence happens, and save_gif runs exactly once with index 1. -/

def wPay : Payload := List.replicate 8 [1]

/-- Witness engine: every trial succeeds with `wPay`. -/

def wEng : Engine := fun _ => .ok wPay

/-- Witness engine raising (code 7) at trial 2. -/

def wErrEng : Engine := fun j => if j = 2 then .error 7 else .ok wPay

/-- Final loop state of a three-trial witness run. -/

def wSt : RunState :=
  runLoop (loopParamsOf c8Ns1 none none) wEng 3 1 ⟨[], [], none⟩

/-- Final loop state of the witness run whose engine raises at trial 2. -/

def wSt5 : RunState :=
  runLoop (loopParamsOf c8Ns1 none none) wErrEng 3 1 ⟨[], [], none⟩

/-- Witness file config: simulations and plotting only. -/

def c1File : FileCfg := fun f =>
  match f with
  | .simulations => some "250"
  | .plotting => some "yes"
  | _ => none

/-- Witness command line: a depth override only. -/

def c1Cli : CliArgs := fun f =>
  match f with
  | .depth => some "3.5"
  | _ => none

/-- Expected resolution for the C1 witness inputs. -/

def c1Ns : ConfigField → PyVal := fun f =>
  match f with
  | .lambda_arg => .VFloat (4 / 5)
  | .collision => .VFloat (-2)
  | .loss => .VFloat (-2)
  | .depth => .VFloat (7 / 2)
  | .simulations => .VInt 250
  | .plotting => .VBool true
  | .trials => .VInt 3
  | .iterations => .VInt 50

/-- Witness file config for C9: an empty "Defaults" section, every value
coming from the stringified builtins. -/

def c9OkFile : FileCfg := fun _ => none

/-- Expected resolution of the module defaults through the file-config
path (every value round-trips through its string form). -/

def c9Ns : ConfigField → PyVal := fun f =>
  match f with
  | .lambda_arg => .VFloat (4 / 5)
  | .collision => .VFloat (-2)
  | .loss => .VFloat (-2)
  | .depth => .VFloat 10
  | .simulations => .VInt 500
  | .plotting => .VBool false
  | .trials => .VInt 100
  | .iterations => .VInt 500

/-! ## Theorems -/

theorem runLoop_ok (p : LoopParams) (engine : Engine) :
    ∀ (r i : Nat) (evs : List Event) (rd : List RunRec),
      (∀ j, i ≤ j → j < i + r → engineWf engine j = true) →
      runLoop p engine r i ⟨evs, rd, none⟩ =
        ⟨evs ++ traceFrom p engine rd i r, rd ++ recsRange engine i r, none⟩ := by
  intro r
  induction r with
  | zero =>
    intro i evs rd _
    simp [runLoop, traceFrom, recsRange, List.range']
  | succ r ih =>
    intro i evs rd h
    have hwf : engineWf engine i = true := h i le_rfl (by omega)
    unfold engineWf at hwf
    cases heng : engine i with
    | error c => rw [heng] at hwf; simp at hwf
    | ok res =>
      rw [heng] at hwf
      simp only [] at hwf
      cases hext : extractCounts res with
      | none => rw [hext] at hwf; simp at hwf
      | some cl =>
        have hok : okRes engine i = res := by simp [okRes, heng]
        have hcnt : countsAt engine i = cl := by simp [countsAt, hok, hext]
        have hrec : recAt engine i = ⟨i, res.drop 1⟩ := by simp [recAt, hok]
        rw [runLoop, heng]
        dsimp only
        rw [hext]
        dsimp only
        rw [ih (i + 1) _ _ (fun j hj1 hj2 => h j (by omega) (by omega))]
        have hrange : List.range' i (r + 1) = i :: List.range' (i + 1) r := rfl
        simp [traceFrom, recsRange, hrange, blockEvents, hrec, hcnt]

theorem runLoop_err (p : LoopParams) (engine : Engine) :
    ∀ (r i k : Nat) (evs : List Event) (rd : List RunRec) (c : Nat),
      (∀ j, i ≤ j → j < k → engineWf engine j = true) →
      engine k = .error c →
      i ≤ k → k < i + r →
      runLoop p engine r i ⟨evs, rd, none⟩ =
        ⟨evs ++ traceFrom p engine rd i (k - i) ++ [callEvent p],
         rd ++ recsRange engine i (k - i), some (.engineFailure c)⟩ := by
  intro r
  induction r with
  | zero => intro i k evs rd c _ _ _ hlt; omega
  | succ r ih =>
    intro i k evs rd c h hk hik hlt
    rcases Nat.eq_or_lt_of_le hik with heq | hlt2
    · subst heq
      rw [runLoop, hk]
      simp [traceFrom, recsRange, List.range']
    · have hwf : engineWf engine i = true := h i le_rfl hlt2
      unfold engineWf at hwf
      cases heng : engine i with
      | error c0 => rw [heng] at hwf; simp at hwf
      | ok res =>
        rw [heng] at hwf
        simp only [] at hwf
        cases hext : extractCounts res with
        | none => rw [hext] at hwf; simp at hwf
        | some cl =>
          have hok : okRes engine i = res := by simp [okRes, heng]
          have hcnt : countsAt engine i = cl := by simp [countsAt, hok, hext]
          have hrec : recAt engine i = ⟨i, res.drop 1⟩ := by simp [recAt, hok]
          rw [runLoop, heng]
          dsimp only
          rw [hext]
          dsimp only
          rw [ih (i + 1) k _ _ c (fun j hj1 hj2 => h j (by omega) hj2) hk
            (by omega) (by omega)]
          have hsub : k - i = (k - (i + 1)) + 1 := by omega
          rw [hsub]
          have hrange : List.range' i ((k - (i + 1)) + 1) =
              i :: List.range' (i + 1) (k - (i + 1)) := rfl
          simp [traceFrom, recsRange, hrange, blockEvents, hrec, hcnt]

theorem recsRange_succ (engine : Engine) (i r : Nat) :
    recsRange engine i (r + 1) = recAt engine i :: recsRange engine (i + 1) r := rfl

theorem recsRange_zero (engine : Engine) (i : Nat) :
    recsRange engine i 0 = [] := rfl

theorem recsRange_length (engine : Engine) (i r : Nat) :
    (recsRange engine i r).length = r := by
  simp [recsRange]

theorem recsRange_map_idx (engine : Engine) :
    ∀ (r i : Nat), (recsRange engine i r).map RunRec.idx = List.range' i r := by
  intro r
  induction r with
  | zero => intro i; rfl
  | succ r ih =>
    intro i
    rw [recsRange_succ, List.map_cons, ih (i + 1)]
    rfl

theorem recsRange_prefix (engine : Engine) (i : Nat) {n r : Nat} (h : n ≤ r) :
    recsRange engine i n <+: recsRange engine i r := by
  refine ⟨recsRange engine (i + n) (r - n), ?_⟩
  unfold recsRange
  rw [← List.map_append]
  have happ := List.range'_append i n (r - n) 1
  rw [one_mul] at happ
  rw [happ]
  have hr : r - n + n = r := by omega
  rw [hr]

theorem writesOf_append (a b : List Event) :
    writesOf (a ++ b) = writesOf a ++ writesOf b := by
  simp [writesOf]

theorem reportsOf_append (a b : List Event) :
    reportsOf (a ++ b) = reportsOf a ++ reportsOf b := by
  simp [reportsOf]

theorem callsOf_append (a b : List Event) :
    callsOf (a ++ b) = callsOf a ++ callsOf b := by
  simp [callsOf]

theorem gifsOf_append (a b : List Event) :
    gifsOf (a ++ b) = gifsOf a ++ gifsOf b := by
  simp [gifsOf]

theorem headerCount_append (a b : List Event) :
    headerCount (a ++ b) = headerCount a + headerCount b := by
  simp [headerCount]

theorem writesOf_block (p : LoopParams) (engine : Engine) (base : List RunRec) (j : Nat) :
    writesOf (blockEvents p engine base j) = [base ++ [recAt engine j]] := by
  unfold blockEvents writesOf callEvent
  by_cases hpl : truthy p.plotting <;> simp [hpl]

theorem reportsOf_block (p : LoopParams) (engine : Engine) (base : List RunRec) (j : Nat) :
    reportsOf (blockEvents p engine base j) =
      [(j, (countsAt engine j).1 / (j : Rat), (countsAt engine j).2 / (j : Rat))] := by
  unfold blockEvents reportsOf callEvent
  by_cases hpl : truthy p.plotting <;> simp [hpl]

theorem callsOf_block (p : LoopParams) (engine : Engine) (base : List RunRec) (j : Nat) :
    callsOf (blockEvents p engine base j) = [callEvent p] := by
  unfold blockEvents callsOf callEvent
  by_cases hpl : truthy p.plotting <;> simp [hpl]

theorem gifsOf_block (p : LoopParams) (engine : Engine) (base : List RunRec) (j : Nat) :
    gifsOf (blockEvents p engine base j) =
      if truthy p.plotting then [j] else [] := by
  unfold blockEvents gifsOf callEvent
  by_cases hpl : truthy p.plotting <;> simp [hpl]

theorem headerCount_block (p : LoopParams) (engine : Engine) (base : List RunRec) (j : Nat) :
    headerCount (blockEvents p engine base j) = 0 := by
  unfold blockEvents headerCount callEvent
  by_cases hpl : truthy p.plotting <;> simp [hpl]

theorem writes_traceFrom (p : LoopParams) (engine : Engine) :
    ∀ (r : Nat) (base : List RunRec) (i : Nat),
      writesOf (traceFrom p engine base i r) = snapshots engine base i r := by
  intro r
  induction r with
  | zero => intro base i; rfl
  | succ r ih =>
    intro base i
    rw [traceFrom, writesOf_append, writesOf_block, ih (base ++ [recAt engine i]) (i + 1),
      snapshots]
    rfl

theorem snapshots_map (engine : Engine) :
    ∀ (r : Nat) (base : List RunRec) (i : Nat),
      snapshots engine base i r =
        (List.range r).map (fun t => base ++ recsRange engine i (t + 1)) := by
  intro r
  induction r with
  | zero => intro base i; rfl
  | succ r ih =>
    intro base i
    rw [snapshots, ih (base ++ [recAt engine i]) (i + 1), List.range_succ_eq_map,
      List.map_cons, List.map_map]
    congr 1
    apply List.map_congr_left
    intro t _
    simp only [Function.comp]
    rw [recsRange_succ, List.append_assoc]
    rfl

theorem snapshots_extend (engine : Engine) :
    ∀ (r : Nat) (base : List RunRec) (i : Nat) (w : List RunRec),
      w ∈ snapshots engine base i r → base <+: w := by
  intro r
  induction r with
  | zero => intro base i w hw; simp [snapshots] at hw
  | succ r ih =>
    intro base i w hw
    rw [snapshots] at hw
    rcases List.mem_cons.mp hw with h | h
    · exact h ▸ ⟨[recAt engine i], rfl⟩
    · have h2 := ih (base ++ [recAt engine i]) (i + 1) w h
      exact ⟨[recAt engine i] ++ h2.choose, by rw [← List.append_assoc]; exact h2.choose_spec⟩

theorem snapshots_chain (engine : Engine) :
    ∀ (r : Nat) (base : List RunRec) (i : Nat),
      List.Chain' (· <+: ·) (snapshots engine base i r) := by
  intro r
  induction r with
  | zero => intro base i; simp [snapshots]
  | succ r ih =>
    intro base i
    rw [snapshots, List.chain'_cons']
    refine ⟨?_, ih (base ++ [recAt engine i]) (i + 1)⟩
    intro w hw
    exact snapshots_extend engine r _ _ w (List.mem_of_mem_head? hw)

theorem reports_traceFrom (p : LoopParams) (engine : Engine) :
    ∀ (r : Nat) (base : List RunRec) (i : Nat),
      reportsOf (traceFrom p engine base i r) =
        (List.range' i r).map
          (fun j => (j, (countsAt engine j).1 / (j : Rat), (countsAt engine j).2 / (j : Rat))) := by
  intro r
  induction r with
  | zero => intro base i; rfl
  | succ r ih =>
    intro base i
    rw [traceFrom, reportsOf_append, reportsOf_block, ih (base ++ [recAt engine i]) (i + 1)]
    rfl

theorem calls_traceFrom (p : LoopParams) (engine : Engine) :
    ∀ (r : Nat) (base : List RunRec) (i : Nat),
      callsOf (traceFrom p engine base i r) = List.replicate r (callEvent p) := by
  intro r
  induction r with
  | zero => intro base i; rfl
  | succ r ih =>
    intro base i
    rw [traceFrom, callsOf_append, callsOf_block, ih (base ++ [recAt engine i]) (i + 1),
      List.replicate_succ]
    rfl

theorem gifs_traceFrom (p : LoopParams) (engine : Engine) :
    ∀ (r : Nat) (base : List RunRec) (i : Nat),
      gifsOf (traceFrom p engine base i r) =
        if truthy p.plotting then List.range' i r else [] := by
  intro r
  induction r with
  | zero =>
    intro base i
    by_cases hpl : truthy p.plotting <;> simp [traceFrom, gifsOf, hpl, List.range']
  | succ r ih =>
    intro base i
    rw [traceFrom, gifsOf_append, gifsOf_block, ih (base ++ [recAt engine i]) (i + 1)]
    by_cases hpl : truthy p.plotting
    · simp [hpl]
      rfl
    · simp [hpl]

theorem headerCount_traceFrom (p : LoopParams) (engine : Engine) :
    ∀ (r : Nat) (base : List RunRec) (i : Nat),
      headerCount (traceFrom p engine base i r) = 0 := by
  intro r
  induction r with
  | zero => intro base i; rfl
  | succ r ih =>
    intro base i
    rw [traceFrom, headerCount_append, headerCount_block,
      ih (base ++ [recAt engine i]) (i + 1)]

theorem join_traceFrom (p : LoopParams) (engine : Engine) :
    ∀ (r : Nat) (base : List RunRec) (i : Nat),
      traceFrom p engine base i r =
        ((List.range r).map
          (fun t => blockEvents p engine (base ++ recsRange engine i t) (i + t))).flatten := by
  intro r
  induction r with
  | zero => intro base i; rfl
  | succ r ih =>
    intro base i
    rw [traceFrom, ih (base ++ [recAt engine i]) (i + 1), List.range_succ_eq_map,
      List.map_cons, List.map_map, List.flatten_cons]
    congr 1
    · rw [recsRange_zero, List.append_nil]
      rfl
    · congr 1
      apply List.map_congr_left
      intro t _
      simp only [Function.comp]
      rw [recsRange_succ, List.append_assoc]
      have hidx : i + (t + 1) = i + 1 + t := by omega
      rw [hidx]
      rfl


/-- An `Except` value is an error. -/

theorem exceptBind_ok {e a b : Type} (x : a) (f : a → Except e b) :
    (Except.ok x : Except e a) >>= f = f x := rfl

theorem exceptBind_err {e a b : Type} (err : e) (f : a → Except e b) :
    (Except.error err : Except e a) >>= f = Except.error err := rfl

theorem argparseStep_ok {d : ConfigField → Option PyVal} {cli : CliArgs}
    {ns : ConfigField → PyVal} (h : argparseStep d cli = .ok ns) :
    ∀ f, resolveField d cli f = .ok (ns f) := by
  unfold argparseStep at h
  cases h1 : resolveField d cli .lambda_arg with
  | error e => rw [h1] at h; rw [exceptBind_err] at h; exact absurd h (by simp)
  | ok la =>
  rw [h1] at h; rw [exceptBind_ok] at h
  cases h2 : resolveField d cli .collision with
  | error e => rw [h2] at h; rw [exceptBind_err] at h; exact absurd h (by simp)
  | ok co =>
  rw [h2] at h; rw [exceptBind_ok] at h
  cases h3 : resolveField d cli .loss with
  | error e => rw [h3] at h; rw [exceptBind_err] at h; exact absurd h (by simp)
  | ok lo =>
  rw [h3] at h; rw [exceptBind_ok] at h
  cases h4 : resolveField d cli .depth with
  | error e => rw [h4] at h; rw [exceptBind_err] at h; exact absurd h (by simp)
  | ok de =>
  rw [h4] at h; rw [exceptBind_ok] at h
  cases h5 : resolveField d cli .simulations with
  | error e => rw [h5] at h; rw [exceptBind_err] at h; exact absurd h (by simp)
  | ok si =>
  rw [h5] at h; rw [exceptBind_ok] at h
  cases h6 : resolveField d cli .plotting with
  | error e => rw [h6] at h; rw [exceptBind_err] at h; exact absurd h (by simp)
  | ok pl =>
  rw [h6] at h; rw [exceptBind_ok] at h
  cases h7 : resolveField d cli .trials with
  | error e => rw [h7] at h; rw [exceptBind_err] at h; exact absurd h (by simp)
  | ok tr =>
  rw [h7] at h; rw [exceptBind_ok] at h
  cases h8 : resolveField d cli .iterations with
  | error e => rw [h8] at h; rw [exceptBind_err] at h; exact absurd h (by simp)
  | ok it =>
  rw [h8] at h; rw [exceptBind_ok] at h
  have hfun := Except.ok.inj h
  intro f
  rw [← hfun]
  cases f
  · exact h1
  · exact h2
  · exact h3
  · exact h4
  · exact h5
  · exact h6
  · exact h7
  · exact h8

theorem argparseStep_err_iff (d : ConfigField → Option PyVal) (cli : CliArgs) :
    isErr (argparseStep d cli) = true ↔
      ∃ f, isErr (resolveField d cli f) = true := by
  unfold argparseStep
  cases h1 : resolveField d cli .lambda_arg with
  | error e =>
    rw [exceptBind_err]
    exact ⟨fun _ => ⟨.lambda_arg, by rw [h1]; rfl⟩, fun _ => rfl⟩
  | ok la =>
  rw [exceptBind_ok]
  cases h2 : resolveField d cli .collision with
  | error e =>
    rw [exceptBind_err]
    exact ⟨fun _ => ⟨.collision, by rw [h2]; rfl⟩, fun _ => rfl⟩
  | ok co =>
  rw [exceptBind_ok]
  cases h3 : resolveField d cli .loss with
  | error e =>
    rw [exceptBind_err]
    exact ⟨fun _ => ⟨.loss, by rw [h3]; rfl⟩, fun _ => rfl⟩
  | ok lo =>
  rw [exceptBind_ok]
  cases h4 : resolveField d cli .depth with
  | error e =>
    rw [exceptBind_err]
    exact ⟨fun _ => ⟨.depth, by rw [h4]; rfl⟩, fun _ => rfl⟩
  | ok de =>
  rw [exceptBind_ok]
  cases h5 : resolveField d cli .simulations with
  | error e =>
    rw [exceptBind_err]
    exact ⟨fun _ => ⟨.simulations, by rw [h5]; rfl⟩, fun _ => rfl⟩
  | ok si =>
  rw [exceptBind_ok]
  cases h6 : resolveField d cli .plotting with
  | error e =>
    rw [exceptBind_err]
    exact ⟨fun _ => ⟨.plotting, by rw [h6]; rfl⟩, fun _ => rfl⟩
  | ok pl =>
  rw [exceptBind_ok]
  cases h7 : resolveField d cli .trials with
  | error e =>
    rw [exceptBind_err]
    exact ⟨fun _ => ⟨.trials, by rw [h7]; rfl⟩, fun _ => rfl⟩
  | ok tr =>
  rw [exceptBind_ok]
  cases h8 : resolveField d cli .iterations with
  | error e =>
    rw [exceptBind_err]
    exact ⟨fun _ => ⟨.iterations, by rw [h8]; rfl⟩, fun _ => rfl⟩
  | ok it =>
  rw [exceptBind_ok]
  constructor
  · intro hcontra
    exact absurd hcontra (by simp [isErr])
  · rintro ⟨f, hf⟩
    cases f <;> simp_all [isErr]

/-- Failure condition of a single argparse action: the supplied
command-line value, or else the installed string default, does not convert
under the declared type. -/

theorem resolveField_err_iff (d : ConfigField → Option PyVal) (cli : CliArgs)
    (f : ConfigField) :
    isErr (resolveField d cli f) = fieldConvFails d cli f := by
  unfold resolveField fieldConvFails
  cases hcli : cli f with
  | some s =>
    cases hconv : convType (ftype f) s <;> simp [isErr, hconv]
  | none =>
    cases hd : d f with
    | none => simp [isErr]
    | some v =>
      cases v with
      | VStr s => cases hconv : convType (ftype f) s <;> simp [isErr, hconv]
      | VInt n => simp [isErr]
      | VFloat q => simp [isErr]
      | VBool b => simp [isErr]
      | VNone => simp [isErr]


/-- Numeric reading of a Python value (`bool` is an `int` subclass in
Python, so `True` reads as 1 and `False` as 0). -/

theorem pyEqb_refl (v : PyVal) : pyEqb v v = true := by
  unfold pyEqb
  cases h : numVal v <;> simp

/-- The value is a Python string. -/

theorem ftype_tBool_iff (f : ConfigField) : ftype f = .tBool ↔ f = .plotting := by
  cases f <;> simp [ftype]

/-- Precedence refinement: under sane builtin defaults, a successful
configuration resolution assigns every field the value of the
highest-precedence source that specifies it, up to Python `==`. -/

theorem resolveConfig_precedence {builtin : Builtins} {args : Option FileCfg}
    {cli : CliArgs} {ns : ConfigField → PyVal}
    (hsane : ∀ f, Option.all (builtinSaneB f) (builtin f) = true)
    (hres : resolveConfig args cli builtin = .ok ns) :
    ∀ f, ∃ v, specResolved builtin args cli f = some v ∧ pyEqb (ns f) v = true := by
  intro f
  cases args with
  | none =>
    have hrf := argparseStep_ok hres f
    unfold resolveField at hrf
    cases hcli : cli f with
    | some s =>
      rw [hcli] at hrf
      dsimp only at hrf
      cases hconv : convType (ftype f) s with
      | none => rw [hconv] at hrf; exact absurd hrf (by simp)
      | some v =>
        rw [hconv] at hrf
        dsimp only at hrf
        have hv : v = ns f := Except.ok.inj hrf
        simp only [specResolved, hcli]
        exact ⟨v, hconv, by rw [← hv]; exact pyEqb_refl _⟩
    | none =>
      rw [hcli] at hrf
      dsimp only at hrf
      cases hb : builtin f with
      | none =>
        rw [hb] at hrf
        dsimp only at hrf
        have hv := Except.ok.inj hrf
        simp only [specResolved, hcli, hb]
        exact ⟨.VNone, rfl, by rw [← hv]; exact pyEqb_refl _⟩
      | some v =>
        rw [hb] at hrf
        have hs := hsane f
        rw [hb] at hs
        simp only [Option.all] at hs
        have hnstr : isStr v = false := by
          rcases Bool.and_eq_true_iff.mp hs with ⟨h1, _⟩
          simpa using h1
        cases v with
        | VStr s => simp [isStr] at hnstr
        | VInt n =>
          dsimp only at hrf
          have hv := Except.ok.inj hrf
          simp only [specResolved, hcli, hb]
          exact ⟨.VInt n, rfl, by rw [← hv]; exact pyEqb_refl _⟩
        | VFloat q =>
          dsimp only at hrf
          have hv := Except.ok.inj hrf
          simp only [specResolved, hcli, hb]
          exact ⟨.VFloat q, rfl, by rw [← hv]; exact pyEqb_refl _⟩
        | VBool b =>
          dsimp only at hrf
          have hv := Except.ok.inj hrf
          simp only [specResolved, hcli, hb]
          exact ⟨.VBool b, rfl, by rw [← hv]; exact pyEqb_refl _⟩
        | VNone =>
          dsimp only at hrf
          have hv := Except.ok.inj hrf
          simp only [specResolved, hcli, hb]
          exact ⟨.VNone, rfl, by rw [← hv]; exact pyEqb_refl _⟩
  | some file =>
    unfold resolveConfig at hres
    dsimp only at hres
    cases hc : configparserStep file builtin with
    | error e => rw [hc] at hres; dsimp only at hres; exact absurd hres (by simp)
    | ok d =>
      rw [hc] at hres
      dsimp only at hres
      have hrf := argparseStep_ok hres f
      unfold configparserStep at hc
      cases hm : mergedFileMap file builtin .plotting with
      | none => rw [hm] at hc; exact absurd hc (by simp)
      | some s0 =>
        rw [hm] at hc
        dsimp only at hc
        cases hgb : pyGetBool s0 with
        | none => rw [hgb] at hc; exact absurd hc (by simp)
        | some b =>
          rw [hgb] at hc
          dsimp only at hc
          have hd := Except.ok.inj hc
          rw [← hd] at hrf
          unfold resolveField at hrf
          simp only [cfgDefaults] at hrf
          by_cases hfp : f = ConfigField.plotting
          · subst hfp
            cases hcli : cli .plotting with
            | some s =>
              rw [hcli] at hrf
              dsimp only at hrf
              simp only [convType, ftype] at hrf
              have hv := Except.ok.inj hrf
              simp only [specResolved, hcli, ftype, convType]
              exact ⟨_, rfl, by rw [← hv]; exact pyEqb_refl _⟩
            | none =>
              rw [hcli] at hrf
              simp only [if_pos] at hrf
              have hv := Except.ok.inj hrf
              cases hfile : file .plotting with
              | some s =>
                have hs0 : s0 = s := by
                  rw [mergedFileMap] at hm
                  simp [hfile, Option.orElse] at hm
                  exact hm.symm
                subst hs0
                simp only [specResolved, hcli, hfile, ftype, hgb, Option.map]
                exact ⟨.VBool b, rfl, by rw [← hv]; exact pyEqb_refl _⟩
              | none =>
                rw [mergedFileMap] at hm
                rw [hfile] at hm
                simp only [Option.orElse] at hm
                cases hb2 : builtin .plotting with
                | none => rw [hb2] at hm; simp at hm
                | some v =>
                  rw [hb2] at hm
                  simp only [Option.map] at hm
                  have hps : pyStr v = s0 := Option.some.inj hm
                  have hs := hsane .plotting
                  rw [hb2] at hs
                  simp only [Option.all] at hs
                  rcases Bool.and_eq_true_iff.mp hs with ⟨_, h2⟩
                  simp only [ftype] at h2
                  rw [hps, hgb] at h2
                  simp only [specResolved, hcli, hfile, hb2]
                  exact ⟨v, rfl, by rw [← hv]; exact h2⟩
          · have hft : ftype f ≠ PType.tBool := fun hcon => hfp ((ftype_tBool_iff f).mp hcon)
            cases hcli : cli f with
            | some s =>
              rw [hcli] at hrf
              dsimp only at hrf
              cases hconv : convType (ftype f) s with
              | none => rw [hconv] at hrf; exact absurd hrf (by simp)
              | some v =>
                rw [hconv] at hrf
                dsimp only at hrf
                have hv := Except.ok.inj hrf
                simp only [specResolved, hcli]
                exact ⟨v, hconv, by rw [← hv]; exact pyEqb_refl _⟩
            | none =>
              rw [hcli] at hrf
              dsimp only at hrf
              rw [if_neg hfp] at hrf
              cases hfile : file f with
              | some s =>
                have hmf : mergedFileMap file builtin f = some s := by
                  rw [mergedFileMap]
                  simp [hfile, Option.orElse]
                rw [hmf] at hrf
                simp only [Option.map] at hrf
                cases hconv : convType (ftype f) s with
                | none => rw [hconv] at hrf; exact absurd hrf (by simp)
                | some v =>
                  rw [hconv] at hrf
                  dsimp only at hrf
                  have hv := Except.ok.inj hrf
                  have hspec : specResolved builtin (some file) cli f = convType (ftype f) s := by
                    cases hft2 : ftype f with
                    | tBool => exact absurd hft2 hft
                    | tInt => simp only [specResolved, hcli, hfile, hft2]
                    | tFloat => simp only [specResolved, hcli, hfile, hft2]
                  rw [hspec, hconv]
                  exact ⟨v, rfl, by rw [← hv]; exact pyEqb_refl _⟩
              | none =>
                cases hb2 : builtin f with
                | none =>
                  have hmf : mergedFileMap file builtin f = none := by
                    rw [mergedFileMap]
                    simp [hfile, hb2, Option.orElse]
                  rw [hmf] at hrf
                  simp only [Option.map] at hrf
                  have hv := Except.ok.inj hrf
                  simp only [specResolved, hcli, hfile, hb2]
                  exact ⟨.VNone, rfl, by rw [← hv]; exact pyEqb_refl _⟩
                | some v =>
                  have hmf : mergedFileMap file builtin f = some (pyStr v) := by
                    rw [mergedFileMap]
                    simp [hfile, hb2, Option.orElse]
                  rw [hmf] at hrf
                  simp only [Option.map] at hrf
                  have hs := hsane f
                  rw [hb2] at hs
                  simp only [Option.all] at hs
                  rcases Bool.and_eq_true_iff.mp hs with ⟨_, h2⟩
                  cases hft2 : ftype f with
                  | tBool => exact absurd hft2 hft
                  | tInt =>
                    rw [hft2] at hrf h2
                    cases hconv : convType .tInt (pyStr v) with
                    | none => rw [hconv] at hrf; exact absurd hrf (by simp)
                    | some w =>
                      rw [hconv] at hrf h2
                      dsimp only at hrf
                      have hv := Except.ok.inj hrf
                      simp only [specResolved, hcli, hfile, hb2]
                      exact ⟨v, rfl, by rw [← hv]; exact h2⟩
                  | tFloat =>
                    rw [hft2] at hrf h2
                    cases hconv : convType .tFloat (pyStr v) with
                    | none => rw [hconv] at hrf; exact absurd hrf (by simp)
                    | some w =>
                      rw [hconv] at hrf h2
                      dsimp only at hrf
                      have hv := Except.ok.inj hrf
                      simp only [specResolved, hcli, hfile, hb2]
                      exact ⟨v, rfl, by rw [← hv]; exact h2⟩


/-- Parameters the loop receives from a resolved namespace. -/

theorem run_mcts_ok (ns : ConfigField → PyVal) (md : Builtins)
    (figTok axTok : Option Nat) (engine : Engine) {n : Nat}
    (ht : trialsCount (ns .trials) = some n) :
    run_mcts (some ns) md figTok axTok engine =
      .ok (runLoop (loopParamsOf ns figTok axTok) engine n 1 ⟨[], [], none⟩) := by
  unfold run_mcts
  dsimp only
  rw [ht]
  rfl

theorem headerCount_runLoop (p : LoopParams) (engine : Engine) :
    ∀ (r i : Nat) (st : RunState),
      headerCount (runLoop p engine r i st).events = headerCount st.events := by
  intro r
  induction r with
  | zero => intro i st; rfl
  | succ r ih =>
    intro i st
    rw [runLoop]
    cases engine i with
    | error c =>
      dsimp only
      rw [headerCount_append]
      rfl
    | ok res =>
      dsimp only
      cases extractCounts res with
      | none =>
        dsimp only
        rw [headerCount_append]
        rfl
      | some cl =>
        dsimp only
        rw [ih]
        dsimp only
        rw [headerCount_append, headerCount_append, headerCount_append]
        by_cases hpl : truthy p.plotting
        · simp [hpl, headerCount, callEvent]
        · simp [hpl, headerCount, callEvent]

theorem callsOf_runLoop (p : LoopParams) (engine : Engine) :
    ∀ (r i : Nat) (st : RunState),
      (∀ ev ∈ callsOf st.events, ev = callEvent p) →
      ∀ ev ∈ callsOf (runLoop p engine r i st).events, ev = callEvent p := by
  intro r
  induction r with
  | zero => intro i st h; exact h
  | succ r ih =>
    intro i st h
    rw [runLoop]
    have hstep : ∀ ev ∈ callsOf (st.events ++ [callEvent p]), ev = callEvent p := by
      intro ev hev
      rw [callsOf_append] at hev
      rcases List.mem_append.mp hev with h1 | h1
      · exact h ev h1
      · simpa [callsOf, callEvent] using h1
    cases engine i with
    | error c => exact hstep
    | ok res =>
      dsimp only
      cases extractCounts res with
      | none => exact hstep
      | some cl =>
        dsimp only
        apply ih
        dsimp only
        intro ev hev
        rw [List.append_assoc, List.append_assoc, callsOf_append] at hev
        rcases List.mem_append.mp hev with h1 | h1
        · exact h ev h1
        · rw [callsOf_append] at h1
          rcases List.mem_append.mp h1 with h2 | h2
          · simpa [callsOf, callEvent] using h2
          · rw [callsOf_append] at h2
            rcases List.mem_append.mp h2 with h3 | h3
            · simp [callsOf] at h3
            · by_cases hpl : truthy p.plotting
              · simp [hpl, callsOf] at h3
              · simp [hpl, callsOf] at h3

theorem run_mcts_trace (ns : ConfigField → PyVal) (md : Builtins)
    (figTok axTok : Option Nat) (engine : Engine) {n : Nat}
    (ht : trialsCount (ns .trials) = some n)
    (hwf : ∀ j, 1 ≤ j → j ≤ n → engineWf engine j = true) :
    run_mcts (some ns) md figTok axTok engine =
      .ok ⟨traceFrom (loopParamsOf ns figTok axTok) engine [] 1 n,
           recsRange engine 1 n, none⟩ := by
  rw [run_mcts_ok ns md figTok axTok engine ht]
  rw [runLoop_ok _ _ n 1 [] [] (fun j h1 h2 => hwf j h1 (by omega))]
  simp


/-- C2: for every N ≥ 1, a run whose engine behaves on trials 1..N
completes with no error, and its run-record sequence has exactly N
entries, one per trial, in strictly increasing trial-index order; the
run-record sequence after any shorter prefix of the loop is a prefix of
the final sequence, so no entry is reordered, removed, or mutated after
being appended. -/

theorem claim_C2 (ns : ConfigField → PyVal) (md : Builtins)
    (figTok axTok : Option Nat) (engine : Engine) (st : RunState) (n : Nat)
    (hn : 1 ≤ n)
    (ht : trialsCount (ns .trials) = some n)
    (hwf : ∀ j, 1 ≤ j → j ≤ n → engineWf engine j = true)
    (hrun : run_mcts (some ns) md figTok axTok engine = .ok st) :
    st.err = none ∧
    st.runData.length = n ∧
    st.runData = recsRange engine 1 n ∧
    st.runData.map RunRec.idx = List.range' 1 n ∧
    List.Pairwise (· < ·) (st.runData.map RunRec.idx) ∧
    (∀ m, m ≤ n →
      (runLoop (loopParamsOf ns figTok axTok) engine m 1 ⟨[], [], none⟩).runData <+:
        st.runData) := by
  rw [run_mcts_trace ns md figTok axTok engine ht hwf] at hrun
  have hst := (Except.ok.inj hrun).symm
  subst hst
  refine ⟨rfl, recsRange_length engine 1 n, rfl, recsRange_map_idx engine n 1, ?_, ?_⟩
  · rw [recsRange_map_idx engine n 1]
    exact List.pairwise_lt_range' 1 n
  · intro m hm
    rw [runLoop_ok _ _ m 1 [] [] (fun j h1 h2 => hwf j h1 (by omega))]
    simpa using recsRange_prefix engine 1 hm

/-- C3: the persistence write is invoked exactly once per completed
trial; the trace decomposes into per-trial blocks in which the write
follows the trial call and precedes the next trial; each write receives
exactly the records of trials completed so far; consecutive write
arguments form a prefix chain. -/

theorem claim_C3 (ns : ConfigField → PyVal) (md : Builtins)
    (figTok axTok : Option Nat) (engine : Engine) (st : RunState) (n : Nat)
    (ht : trialsCount (ns .trials) = some n)
    (hwf : ∀ j, 1 ≤ j → j ≤ n → engineWf engine j = true)
    (hrun : run_mcts (some ns) md figTok axTok engine = .ok st) :
    (writesOf st.events).length = n ∧
    writesOf st.events = (List.range n).map (fun t => recsRange engine 1 (t + 1)) ∧
    List.Chain' (· <+: ·) (writesOf st.events) ∧
    st.events =
      ((List.range n).map
        (fun t => blockEvents (loopParamsOf ns figTok axTok) engine
          (recsRange engine 1 t) (1 + t))).flatten := by
  rw [run_mcts_trace ns md figTok axTok engine ht hwf] at hrun
  have hst := (Except.ok.inj hrun).symm
  subst hst
  have hw : writesOf (traceFrom (loopParamsOf ns figTok axTok) engine [] 1 n) =
      (List.range n).map (fun t => recsRange engine 1 (t + 1)) := by
    rw [writes_traceFrom, snapshots_map]
    apply List.map_congr_left
    intro t _
    simp
  refine ⟨?_, hw, ?_, ?_⟩
  · rw [hw, List.length_map, List.length_range]
  · rw [writes_traceFrom]
    exact snapshots_chain engine n [] 1
  · rw [join_traceFrom]
    congr 1

/-- C4: the progress report of each trial i in 1..N carries exactly the
engine's cumulative collision and loss counts at trial i divided by i,
and the divisor i is never zero. -/

theorem claim_C4 (ns : ConfigField → PyVal) (md : Builtins)
    (figTok axTok : Option Nat) (engine : Engine) (st : RunState) (n : Nat)
    (ht : trialsCount (ns .trials) = some n)
    (hwf : ∀ j, 1 ≤ j → j ≤ n → engineWf engine j = true)
    (hrun : run_mcts (some ns) md figTok axTok engine = .ok st) :
    reportsOf st.events =
      (List.range' 1 n).map
        (fun j => (j, (countsAt engine j).1 / (j : Rat), (countsAt engine j).2 / (j : Rat))) ∧
    ∀ j ∈ List.range' 1 n, (j : Rat) ≠ 0 := by
  rw [run_mcts_trace ns md figTok axTok engine ht hwf] at hrun
  have hst := (Except.ok.inj hrun).symm
  subst hst
  refine ⟨reports_traceFrom _ engine n [] 1, ?_⟩
  intro j hj
  have h1 : 1 ≤ j := (List.mem_range'_1.mp hj).1
  have hj0 : j ≠ 0 := by omega
  exact_mod_cast Nat.cast_ne_zero.mpr hj0

/-- C5: when the engine raises at trial k of n, the loop stops with the
propagated failure, the persistence write has run exactly k-1 times with
the usual growing prefixes, the run-record sequence holds exactly the
first k-1 records, and exactly k trial calls were issued (none after k). -/

theorem claim_C5 (ns : ConfigField → PyVal) (md : Builtins)
    (figTok axTok : Option Nat) (engine : Engine) (st : RunState)
    (n k c : Nat)
    (ht : trialsCount (ns .trials) = some n)
    (hk1 : 1 ≤ k) (hkn : k ≤ n)
    (hwf : ∀ j, 1 ≤ j → j < k → engineWf engine j = true)
    (herr : engine k = .error c)
    (hrun : run_mcts (some ns) md figTok axTok engine = .ok st) :
    st.err = some (.engineFailure c) ∧
    (writesOf st.events).length = k - 1 ∧
    writesOf st.events = (List.range (k - 1)).map (fun t => recsRange engine 1 (t + 1)) ∧
    st.runData = recsRange engine 1 (k - 1) ∧
    (callsOf st.events).length = k := by
  rw [run_mcts_ok ns md figTok axTok engine ht] at hrun
  rw [runLoop_err _ _ n 1 k [] [] c (fun j h1 h2 => hwf j h1 h2) herr hk1 (by omega)] at hrun
  have hst := (Except.ok.inj hrun).symm
  subst hst
  have hw : writesOf ([] ++ traceFrom (loopParamsOf ns figTok axTok) engine [] 1 (k - 1) ++
      [callEvent (loopParamsOf ns figTok axTok)]) =
      (List.range (k - 1)).map (fun t => recsRange engine 1 (t + 1)) := by
    rw [List.nil_append, writesOf_append, writes_traceFrom, snapshots_map]
    have hcall : writesOf [callEvent (loopParamsOf ns figTok axTok)] = [] := rfl
    rw [hcall, List.append_nil]
    apply List.map_congr_left
    intro t _
    simp
  refine ⟨rfl, ?_, hw, by simp, ?_⟩
  · rw [hw, List.length_map, List.length_range]
  · rw [List.nil_append, callsOf_append, calls_traceFrom]
    have hcall : callsOf [callEvent (loopParamsOf ns figTok axTok)] =
        [callEvent (loopParamsOf ns figTok axTok)] := rfl
    rw [hcall]
    simp only [List.length_append, List.length_replicate, List.length_singleton]
    omega

/-- C10: every `mcts_trial` invocation of a run carries the same
configuration-derived arguments (iteration budget, depth, plotting flag,
simulation count, and the same figure/axis handles), and the horizon
argument is the hard-coded constant 20, whatever the configuration. -/

theorem claim_C10 (ns : ConfigField → PyVal) (md : Builtins)
    (figTok axTok : Option Nat) (engine : Engine) (st : RunState)
    (hrun : run_mcts (some ns) md figTok axTok engine = .ok st) :
    ∀ ev ∈ callsOf st.events,
      ev = Event.callTrial (ns .iterations) (ns .depth) 20 (ns .plotting)
        (ns .simulations) figTok axTok := by
  unfold run_mcts at hrun
  dsimp only at hrun
  cases ht : trialsCount (ns .trials) with
  | none => rw [ht] at hrun; exact absurd hrun (by simp)
  | some n =>
    rw [ht] at hrun
    dsimp only at hrun
    have hst := (Except.ok.inj hrun).symm
    subst hst
    intro ev hev
    have := callsOf_runLoop (loopParamsOf ns figTok axTok) engine n 1 ⟨[], [], none⟩
      (by intro e he; simp [callsOf] at he) ev hev
    exact this

/-- C1: for every configuration field, the value resolved by the entry
point equals (up to Python `==`) the value of the highest-precedence
source that actually specifies it, with precedence
builtin_defaults < file_config < cli_args; a field specified by neither
the file config nor the command line resolves to the builtin default, and
an unsupplied command-line flag never replaces the prior layer value with
the flag type default, because `specResolved` consults a lower layer
whenever `cli f = none`. -/

theorem claim_C1 (builtin : Builtins) (args : Option FileCfg) (cli : CliArgs)
    (ns : ConfigField → PyVal)
    (hsane : ∀ f, Option.all (builtinSaneB f) (builtin f) = true)
    (hres : resolveConfig args cli builtin = .ok ns) :
    ∀ f, ∃ v, specResolved builtin args cli f = some v ∧ pyEqb (ns f) v = true :=
  resolveConfig_precedence hsane hres

theorem convType_shape {t : PType} {s : String} {v : PyVal}
    (h : convType t s = some v) :
    (t = .tBool → ∃ b, v = .VBool b) ∧ (t = .tInt → ∃ m, v = .VInt m) ∧
    (t = .tFloat → ∃ q, v = .VFloat q) := by
  cases t with
  | tFloat =>
    refine ⟨fun hc => PType.noConfusion hc, fun hc => PType.noConfusion hc, fun _ => ?_⟩
    simp only [convType] at h
    cases hp : parseFloatStr s with
    | none => rw [hp] at h; simp at h
    | some q => rw [hp] at h; simp at h; exact ⟨q, h.symm⟩
  | tInt =>
    refine ⟨fun hc => PType.noConfusion hc, fun _ => ?_, fun hc => PType.noConfusion hc⟩
    simp only [convType] at h
    cases hp : parseIntStr s with
    | none => rw [hp] at h; simp at h
    | some m => rw [hp] at h; simp at h; exact ⟨m, h.symm⟩
  | tBool =>
    refine ⟨fun _ => ?_, fun hc => PType.noConfusion hc, fun hc => PType.noConfusion hc⟩
    simp only [convType] at h
    simp at h
    exact ⟨_, h.symm⟩

/-- C7: when a file config is supplied and resolution succeeds, every
field the file provides reaches the runner as a value of its declared
type: the plotting field as an actual boolean, every numeric field as its
declared numeric type, never as a string. -/

theorem claim_C7 (builtin : Builtins) (file : FileCfg) (cli : CliArgs)
    (ns : ConfigField → PyVal)
    (hres : resolveConfig (some file) cli builtin = .ok ns) :
    ∀ f s, file f = some s →
      ((ftype f = .tBool → ∃ b, ns f = .VBool b) ∧
       (ftype f = .tInt → ∃ m, ns f = .VInt m) ∧
       (ftype f = .tFloat → ∃ q, ns f = .VFloat q)) := by
  intro f s hfile
  unfold resolveConfig at hres
  dsimp only at hres
  cases hc : configparserStep file builtin with
  | error e => rw [hc] at hres; dsimp only at hres; exact absurd hres (by simp)
  | ok d =>
    rw [hc] at hres
    dsimp only at hres
    have hrf := argparseStep_ok hres f
    unfold configparserStep at hc
    cases hm : mergedFileMap file builtin .plotting with
    | none => rw [hm] at hc; exact absurd hc (by simp)
    | some s0 =>
      rw [hm] at hc
      dsimp only at hc
      cases hgb : pyGetBool s0 with
      | none => rw [hgb] at hc; exact absurd hc (by simp)
      | some b =>
        rw [hgb] at hc
        dsimp only at hc
        have hd := Except.ok.inj hc
        rw [← hd] at hrf
        unfold resolveField at hrf
        simp only [cfgDefaults] at hrf
        by_cases hfp : f = ConfigField.plotting
        · subst hfp
          cases hcli : cli .plotting with
          | some s2 =>
            rw [hcli] at hrf
            dsimp only at hrf
            simp only [ftype, convType] at hrf
            have hv := Except.ok.inj hrf
            exact ⟨fun _ => ⟨!s2.isEmpty, hv.symm⟩,
              fun hcon => by simp [ftype] at hcon,
              fun hcon => by simp [ftype] at hcon⟩
          | none =>
            rw [hcli] at hrf
            simp only [if_pos] at hrf
            have hv := Except.ok.inj hrf
            exact ⟨fun _ => ⟨b, hv.symm⟩,
              fun hcon => by simp [ftype] at hcon,
              fun hcon => by simp [ftype] at hcon⟩
        · have hmf : mergedFileMap file builtin f = some s := by
            rw [mergedFileMap]
            simp [hfile, Option.orElse]
          cases hcli : cli f with
          | some s2 =>
            rw [hcli] at hrf
            dsimp only at hrf
            cases hconv : convType (ftype f) s2 with
            | none => rw [hconv] at hrf; exact absurd hrf (by simp)
            | some v =>
              rw [hconv] at hrf
              dsimp only at hrf
              have hv := Except.ok.inj hrf
              have hsh := convType_shape hconv
              exact ⟨fun hc => (hsh.1 hc).imp (fun b hb => by rw [← hv]; exact hb),
                fun hc => (hsh.2.1 hc).imp (fun m hm2 => by rw [← hv]; exact hm2),
                fun hc => (hsh.2.2 hc).imp (fun q hq => by rw [← hv]; exact hq)⟩
          | none =>
            rw [hcli] at hrf
            dsimp only at hrf
            rw [if_neg hfp, hmf] at hrf
            simp only [Option.map] at hrf
            cases hconv : convType (ftype f) s with
            | none => rw [hconv] at hrf; exact absurd hrf (by simp)
            | some v =>
              rw [hconv] at hrf
              dsimp only at hrf
              have hv := Except.ok.inj hrf
              have hsh := convType_shape hconv
              exact ⟨fun hc => (hsh.1 hc).imp (fun b hb => by rw [← hv]; exact hb),
                fun hc => (hsh.2.1 hc).imp (fun m hm2 => by rw [← hv]; exact hm2),
                fun hc => (hsh.2.2 hc).imp (fun q hq => by rw [← hv]; exact hq)⟩


/-- The module-level `mcts_defaults` dictionary of the source
(`__main__` block, lines 153-162). -/

theorem claim_C6_counterexample :
    ¬ (isErr (resolveConfig (some c6File) noCliW mctsDefaultsPy) = true ↔
        (requiredUnresolvedB mctsDefaultsPy (some c6File) noCliW = true ∨
         malformedFileBoolB (some c6File) = true)) := by
  with_unfolding_all decide

/-- The failure condition the code actually implements: when a file
config is supplied, failure of the plotting merge (missing key or
unparseable boolean), else failure of some field's string-to-declared-type
conversion in argparse. -/

theorem claim_C6_amended (builtin : Builtins) (args : Option FileCfg) (cli : CliArgs) :
    (isErr (resolveConfig args cli builtin) = true ↔
      resolutionFailCond builtin args cli) ∧
    (∀ ns, resolveConfig args cli builtin = .ok ns →
      ∀ f, specifiesNobody builtin args cli f = true → ns f = .VNone) ∧
    (∀ ns (md : Builtins) (figTok axTok : Option Nat) (engine : Engine),
      ns ConfigField.trials = .VNone →
      run_mcts (some ns) md figTok axTok engine = .error .typeError) := by
  refine ⟨?_, ?_, ?_⟩
  · cases args with
    | none =>
      have h2 : resolveConfig none cli builtin = argparseStep builtin cli := rfl
      rw [h2, resolutionFailCond, argparseStep_err_iff]
      simp only [resolveField_err_iff]
    | some file =>
      cases hm : mergedFileMap file builtin .plotting with
      | none =>
        have h1 : configparserStep file builtin = .error .noPlottingKey := by
          simp only [configparserStep, hm]
        have h2 : resolveConfig (some file) cli builtin = .error .noPlottingKey := by
          unfold resolveConfig
          dsimp only
          rw [h1]
        rw [h2]
        simp [isErr, resolutionFailCond, hm]
      | some s =>
        cases hgb : pyGetBool s with
        | none =>
          have h1 : configparserStep file builtin = .error (.badPlottingValue s) := by
            simp only [configparserStep, hm, hgb]
          have h2 : resolveConfig (some file) cli builtin = .error (.badPlottingValue s) := by
            unfold resolveConfig
            dsimp only
            rw [h1]
          rw [h2]
          simp [isErr, resolutionFailCond, hm, hgb]
        | some b =>
          have h1 : configparserStep file builtin = .ok (cfgDefaults file builtin b) := by
            simp only [configparserStep, hm, hgb]
          have h2 : resolveConfig (some file) cli builtin =
              argparseStep (cfgDefaults file builtin b) cli := by
            unfold resolveConfig
            dsimp only
            rw [h1]
          rw [h2, argparseStep_err_iff]
          simp only [resolutionFailCond, hm, hgb]
          simp only [resolveField_err_iff]
  · intro ns hres f hnb
    simp only [specifiesNobody, Bool.and_eq_true, Option.isNone_iff_eq_none] at hnb
    cases args with
    | none =>
      have hrf := argparseStep_ok hres f
      unfold resolveField at hrf
      rw [hnb.1.1, hnb.2] at hrf
      exact (Except.ok.inj hrf).symm ▸ rfl
    | some file =>
      unfold resolveConfig at hres
      dsimp only at hres
      cases hc : configparserStep file builtin with
      | error e => rw [hc] at hres; dsimp only at hres; exact absurd hres (by simp)
      | ok d =>
        rw [hc] at hres
        dsimp only at hres
        have hrf := argparseStep_ok hres f
        unfold configparserStep at hc
        cases hm : mergedFileMap file builtin .plotting with
        | none => rw [hm] at hc; exact absurd hc (by simp)
        | some s0 =>
          rw [hm] at hc
          dsimp only at hc
          cases hgb : pyGetBool s0 with
          | none => rw [hgb] at hc; exact absurd hc (by simp)
          | some b =>
            rw [hgb] at hc
            dsimp only at hc
            have hd := Except.ok.inj hc
            rw [← hd] at hrf
            have hfile : file f = none := by
              have := hnb.1.2
              simpa using this
            have hbf : builtin f = none := hnb.2
            have hmf : mergedFileMap file builtin f = none := by
              rw [mergedFileMap, hfile, hbf]
              rfl
            by_cases hfp : f = ConfigField.plotting
            · subst hfp
              rw [hmf] at hm
              exact absurd hm (by simp)
            · unfold resolveField at hrf
              simp only [cfgDefaults] at hrf
              rw [hnb.1.1] at hrf
              rw [if_neg hfp, hmf] at hrf
              simp only [Option.map] at hrf
              exact (Except.ok.inj hrf).symm ▸ rfl
  · intro ns md figTok axTok engine hns
    unfold run_mcts
    dsimp only
    rw [hns]
    rfl


/-- File config whose plotting entry is not a boolean. -/

theorem claim_C9_counterexample :
    ¬ (headerCount (mcts (some c9File) noCliW mctsDefaultsPy c9Eng).events = 1 ↔
        Option.isSome (some c9File) = true) := by
  with_unfolding_all decide

/-- C9 amended: when configuration resolution fails nothing at all is
emitted (in particular no header); when it succeeds, the header is
written exactly once if and only if a file configuration was supplied,
and it precedes every other event of the run. -/

theorem claim_C9_amended (args : Option FileCfg) (cli : CliArgs)
    (builtin : Builtins) (engine : Engine) :
    ((∃ e, resolveConfig args cli builtin = .error e) →
      (mcts args cli builtin engine).events = []) ∧
    (∀ ns, resolveConfig args cli builtin = .ok ns →
      headerCount (mcts args cli builtin engine).events =
        (if args.isSome then 1 else 0) ∧
      ∃ evs, (mcts args cli builtin engine).events =
        (if args.isSome then [Event.header] else []) ++ evs ∧
        headerCount evs = 0) := by
  constructor
  · rintro ⟨e, he⟩
    unfold mcts
    rw [he]
  · intro ns hres
    unfold mcts
    rw [hres]
    dsimp only
    cases hrun : run_mcts (some ns) builtin none none engine with
    | error e =>
      dsimp only
      refine ⟨?_, [], by simp, rfl⟩
      cases args <;> rfl
    | ok st =>
      dsimp only
      have hst0 : headerCount st.events = 0 := by
        unfold run_mcts at hrun
        dsimp only at hrun
        cases ht : trialsCount (ns .trials) with
        | none => rw [ht] at hrun; exact absurd hrun (by simp)
        | some n =>
          rw [ht] at hrun
          dsimp only at hrun
          have hst := (Except.ok.inj hrun).symm
          subst hst
          rw [headerCount_runLoop]
          rfl
      refine ⟨?_, st.events, rfl, hst0⟩
      rw [headerCount_append, hst0]
      cases args <;> rfl


/-- The builtin defaults of the C8 scenario. -/

theorem claim_C8 (engine : Engine) (hwf : ∀ j, engineWf engine j = true) :
    (resolveConfig none noCliW c8Builtin = .ok c8Ns1 ∧
     (∀ f, some (c8Ns1 f) = c8Builtin f)) ∧
    ((mcts none noCliW c8Builtin engine).fail = none ∧
     (mcts none noCliW c8Builtin engine).runData.length = 3 ∧
     (writesOf (mcts none noCliW c8Builtin engine).events).map List.length = [1, 2, 3] ∧
     gifsOf (mcts none noCliW c8Builtin engine).events = []) ∧
    (resolveConfig none c8Cli2 c8Builtin = .ok c8Ns2 ∧
     c8Ns2 .trials = .VInt 1 ∧ c8Ns2 .plotting = .VBool true) ∧
    ((mcts none c8Cli2 c8Builtin engine).fail = none ∧
     (mcts none c8Cli2 c8Builtin engine).runData.length = 1 ∧
     (writesOf (mcts none c8Cli2 c8Builtin engine).events).map List.length = [1] ∧
     gifsOf (mcts none c8Cli2 c8Builtin engine).events = [1]) := by
  have hres1 : resolveConfig none noCliW c8Builtin = .ok c8Ns1 := by
    with_unfolding_all decide
  have hres2 : resolveConfig none c8Cli2 c8Builtin = .ok c8Ns2 := by
    with_unfolding_all decide
  have hmcts1 : mcts none noCliW c8Builtin engine =
      ⟨traceFrom (loopParamsOf c8Ns1 none none) engine [] 1 3,
       recsRange engine 1 3, none⟩ := by
    unfold mcts
    rw [hres1]
    dsimp only
    rw [run_mcts_trace c8Ns1 c8Builtin none none engine rfl
      (fun j h1 h2 => hwf j)]
    rfl
  have hmcts2 : mcts none c8Cli2 c8Builtin engine =
      ⟨traceFrom (loopParamsOf c8Ns2 none none) engine [] 1 1,
       recsRange engine 1 1, none⟩ := by
    unfold mcts
    rw [hres2]
    dsimp only
    rw [run_mcts_trace c8Ns2 c8Builtin none none engine rfl
      (fun j h1 h2 => hwf j)]
    rfl
  have hwrites : ∀ (p : LoopParams) (n : Nat),
      (writesOf (traceFrom p engine [] 1 n)).map List.length =
        (List.range n).map (fun t => t + 1) := by
    intro p n
    rw [writes_traceFrom, snapshots_map, List.map_map]
    apply List.map_congr_left
    intro t _
    simp [recsRange_length]
  refine ⟨⟨hres1, fun f => by cases f <;> rfl⟩, ⟨?_, ?_, ?_, ?_⟩,
    ⟨hres2, rfl, rfl⟩, ⟨?_, ?_, ?_, ?_⟩⟩
  · rw [hmcts1]
  · rw [hmcts1]
    exact recsRange_length engine 1 3
  · rw [hmcts1]
    dsimp only
    rw [hwrites]
    rfl
  · rw [hmcts1]
    dsimp only
    rw [gifs_traceFrom]
    rfl
  · rw [hmcts2]
  · rw [hmcts2]
    exact recsRange_length engine 1 1
  · rw [hmcts2]
    dsimp only
    rw [hwrites]
    rfl
  · rw [hmcts2]
    dsimp only
    rw [gifs_traceFrom]
    rfl


/-- A payload every trial of the witness engine returns: eight singleton
histories, so `result[6][-1] = result[7][-1] = 1`. -/

theorem claim_C1_witness :
    ((∀ f, Option.all (builtinSaneB f) (c8Builtin f) = true) ∧
     resolveConfig (some c1File) c1Cli c8Builtin = .ok c1Ns) ∧
    (∀ f, ∃ v, specResolved c8Builtin (some c1File) c1Cli f = some v ∧
      pyEqb (c1Ns f) v = true) :=
  ⟨⟨by with_unfolding_all decide, by with_unfolding_all decide⟩,
   claim_C1 c8Builtin (some c1File) c1Cli c1Ns
     (by with_unfolding_all decide) (by with_unfolding_all decide)⟩

theorem claim_C2_witness :
    (1 ≤ 3 ∧ trialsCount (c8Ns1 .trials) = some 3 ∧
     (∀ j, 1 ≤ j → j ≤ 3 → engineWf wEng j = true) ∧
     run_mcts (some c8Ns1) c8Builtin none none wEng = .ok wSt) ∧
    (wSt.err = none ∧
     wSt.runData.length = 3 ∧
     wSt.runData = recsRange wEng 1 3 ∧
     wSt.runData.map RunRec.idx = List.range' 1 3 ∧
     List.Pairwise (· < ·) (wSt.runData.map RunRec.idx) ∧
     (∀ m, m ≤ 3 →
       (runLoop (loopParamsOf c8Ns1 none none) wEng m 1 ⟨[], [], none⟩).runData <+:
         wSt.runData)) :=
  ⟨⟨by decide, rfl, fun j h1 h2 => rfl, rfl⟩,
   claim_C2 c8Ns1 c8Builtin none none wEng wSt 3 (by decide) rfl
     (fun j h1 h2 => rfl) rfl⟩

theorem claim_C3_witness :
    (trialsCount (c8Ns1 .trials) = some 3 ∧
     run_mcts (some c8Ns1) c8Builtin none none wEng = .ok wSt) ∧
    ((writesOf wSt.events).length = 3 ∧
     writesOf wSt.events = (List.range 3).map (fun t => recsRange wEng 1 (t + 1)) ∧
     List.Chain' (· <+: ·) (writesOf wSt.events) ∧
     wSt.events =
       ((List.range 3).map
         (fun t => blockEvents (loopParamsOf c8Ns1 none none) wEng
           (recsRange wEng 1 t) (1 + t))).flatten) :=
  ⟨⟨rfl, rfl⟩,
   claim_C3 c8Ns1 c8Builtin none none wEng wSt 3 rfl (fun j h1 h2 => rfl) rfl⟩

theorem claim_C4_witness :
    (trialsCount (c8Ns1 .trials) = some 3 ∧
     run_mcts (some c8Ns1) c8Builtin none none wEng = .ok wSt) ∧
    (reportsOf wSt.events =
      (List.range' 1 3).map
        (fun j => (j, (countsAt wEng j).1 / (j : Rat), (countsAt wEng j).2 / (j : Rat))) ∧
     ∀ j ∈ List.range' 1 3, (j : Rat) ≠ 0) :=
  ⟨⟨rfl, rfl⟩,
   claim_C4 c8Ns1 c8Builtin none none wEng wSt 3 rfl (fun j h1 h2 => rfl) rfl⟩

theorem claim_C5_witness :
    (trialsCount (c8Ns1 .trials) = some 3 ∧ 1 ≤ 2 ∧ 2 ≤ 3 ∧
     (∀ j, 1 ≤ j → j < 2 → engineWf wErrEng j = true) ∧
     wErrEng 2 = .error 7 ∧
     run_mcts (some c8Ns1) c8Builtin none none wErrEng = .ok wSt5) ∧
    (wSt5.err = some (.engineFailure 7) ∧
     (writesOf wSt5.events).length = 1 ∧
     writesOf wSt5.events = (List.range 1).map (fun t => recsRange wErrEng 1 (t + 1)) ∧
     wSt5.runData = recsRange wErrEng 1 1 ∧
     (callsOf wSt5.events).length = 2) :=
  ⟨⟨rfl, by decide, by decide,
    fun j h1 h2 => by
      have hj : j = 1 := by omega
      subst hj
      rfl,
    rfl, rfl⟩,
   claim_C5 c8Ns1 c8Builtin none none wErrEng wSt5 3 2 7 rfl (by decide) (by decide)
     (fun j h1 h2 => by
       have hj : j = 1 := by omega
       subst hj
       rfl)
     rfl rfl⟩

theorem claim_C6_amended_witness :
    run_mcts (some (fun _ => PyVal.VNone)) mctsDefaultsPy none none wEng =
      .error .typeError :=
  (claim_C6_amended mctsDefaultsPy none noCliW).2.2
    (fun _ => PyVal.VNone) mctsDefaultsPy none none wEng rfl

theorem claim_C7_witness :
    resolveConfig (some c1File) c1Cli c8Builtin = .ok c1Ns ∧
    (∀ f s, c1File f = some s →
      ((ftype f = .tBool → ∃ b, c1Ns f = .VBool b) ∧
       (ftype f = .tInt → ∃ m, c1Ns f = .VInt m) ∧
       (ftype f = .tFloat → ∃ q, c1Ns f = .VFloat q))) :=
  ⟨by with_unfolding_all decide,
   claim_C7 c8Builtin c1File c1Cli c1Ns (by with_unfolding_all decide)⟩

theorem claim_C8_witness :
    (∀ j, engineWf wEng j = true) ∧
    ((mcts none noCliW c8Builtin wEng).fail = none ∧
     (writesOf (mcts none noCliW c8Builtin wEng).events).map List.length = [1, 2, 3] ∧
     gifsOf (mcts none noCliW c8Builtin wEng).events = [] ∧
     gifsOf (mcts none c8Cli2 c8Builtin wEng).events = [1]) :=
  ⟨fun j => rfl,
   ⟨(claim_C8 wEng (fun j => rfl)).2.1.1,
    (claim_C8 wEng (fun j => rfl)).2.1.2.2.1,
    (claim_C8 wEng (fun j => rfl)).2.1.2.2.2,
    (claim_C8 wEng (fun j => rfl)).2.2.2.2.2.2⟩⟩

set_option maxRecDepth 8000 in
theorem claim_C9_amended_witness :
    resolveConfig (some c9OkFile) noCliW mctsDefaultsPy = .ok c9Ns ∧
    headerCount (mcts (some c9OkFile) noCliW mctsDefaultsPy wEng).events = 1 :=
  have hres : resolveConfig (some c9OkFile) noCliW mctsDefaultsPy = .ok c9Ns := by
    with_unfolding_all decide
  ⟨hres, ((claim_C9_amended (some c9OkFile) noCliW mctsDefaultsPy wEng).2 c9Ns hres).1⟩

theorem claim_C10_witness :
    run_mcts (some c8Ns1) c8Builtin none none wEng = .ok wSt ∧
    (∀ ev ∈ callsOf wSt.events,
      ev = Event.callTrial (c8Ns1 .iterations) (c8Ns1 .depth) 20
        (c8Ns1 .plotting) (c8Ns1 .simulations) none none) :=
  ⟨rfl, claim_C10 c8Ns1 c8Builtin none none wEng wSt rfl⟩

end BirdsEye

